import Mathlib

/-!
Verification development for stream_pihole_logs.py (pihole-twins).

The source is a single Python file.  The parts the claims are about are:

  - PiHoleStreamer.parse_log_line  (lines 61-82): a stateful classifier.
    A query line is recognised with
        re.search(r'query\[.*?\].*?from\s+([\d.]+)$', line)
    and a block/deny line by a case-insensitive substring test for
    "gravity blocked" / "exactly blocked" / "exactly denied".
  - PiHoleStreamer.resolve_hostname (lines 48-59): a cached reverse lookup
    with negative caching on socket.herror / socket.gaierror.
  - PiHoleStreamer.stream_logs (lines 84-136): the per-line pipeline
    (strip, skip empty, classify, blocked-only gate, resolve, host filter,
    format, push to the merge queue; verbose gate for unparsed lines).

Lines are modelled as lists of characters (`Line`).  Lines handed to the
classifier come from `readline()` followed by `strip()`, so they contain no
newline; the embedding therefore does not model the newline-exclusion of
`.` in Python regexes, and it models `\s` / `\d` by their ASCII parts,
which is what Pi-hole log lines contain.

The regex `query\[.*?\].*?from\s+([\d.]+)$` is embedded as a functional
parser.  Because the capture group `([\d.]+)` is anchored at the end of the
line and its character class is disjoint from `\s`, any successful match is
forced to decompose the line as

    pre ++ "from" ++ w ++ ip

where `ip` is the maximal non-empty trailing run of digits-and-dots,
`w` is the maximal non-empty whitespace run directly before it, the text
before `w` ends in the literal "from", and `pre` (everything before that
"from") contains "query[" followed later by "]".  `match.group(1)` is then
`ip` and `match.start(1)` is `line.length - ip.length`, independently of
which occurrence the backtracking engine picks.  The parser below computes
exactly these components, scanning from the right via `List.reverse`.
-/

/-- A log line: a list of characters (no newline; see the header comment). -/
abbrev Line := List Char

/-- The character class `[\d.]` of the capture group (ASCII digits and dot). -/
def isDigitDot (c : Char) : Bool := c.isDigit || c == '.'

/-- The character class `\s` (ASCII whitespace, as produced by Pi-hole logs). -/
def isSpaceChar (c : Char) : Bool :=
  c == ' ' || c == '\t' || c == '\n' || c == '\r' || c == '\x0b' || c == '\x0c'

/-- Does `hay` start with `needle`?  (Used to embed substring search.) -/
def startsWith : Line → Line → Bool
  | [], _ => true
  | _ :: _, [] => false
  | n :: ns, h :: hs => if n = h then startsWith ns hs else false

/-- Drop through the first occurrence of `needle` in `hay`: returns the part
of `hay` after that first occurrence, or `none` when `needle` does not occur.
Embeds the scanning part of `re.search` / Python's `in` operator. -/
def dropThrough (needle : Line) : Line → Option Line
  | [] => if needle = [] then some [] else none
  | c :: t =>
    if startsWith needle (c :: t) then some ((c :: t).drop needle.length)
    else dropThrough needle t

/-- Python's substring operator `needle in hay`. -/
def containsSub (needle hay : Line) : Bool := (dropThrough needle hay).isSome

/-- Python's `str.lower()` (per-character, ASCII range). -/
def toLowerL (l : Line) : Line := l.map Char.toLower

/-- The literal "query[" of the regex. -/
def queryMark : Line := 'q' :: 'u' :: 'e' :: 'r' :: 'y' :: '[' :: []

/-- The literal "from" of the regex. -/
def fromMark : Line := 'f' :: 'r' :: 'o' :: 'm' :: []

/-- Is there a close bracket in the list?  (Scans for the `\]` of the regex.) -/
def hasCloseBracket : Line → Bool
  | [] => false
  | c :: t => if c = ']' then true else hasCloseBracket t

/-- Does `pre` contain "query[" followed (possibly later) by "]"?  This is
exactly what `query\[.*?\]` requires of the text before the final "from". -/
def hasQueryBracket (pre : Line) : Bool :=
  match dropThrough queryMark pre with
  | some rest => hasCloseBracket rest
  | none => false

/-- The maximal trailing digits-and-dots run of `line`, reversed
(the candidate for the capture group `([\d.]+)$`). -/
def tokR (line : Line) : Line := line.reverse.takeWhile isDigitDot

/-- The reversed line after the trailing token. -/
def afterTok (line : Line) : Line := line.reverse.drop (tokR line).length

/-- The maximal whitespace run before the trailing token, reversed
(the candidate for `\s+`). -/
def wsR (line : Line) : Line := (afterTok line).takeWhile isSpaceChar

/-- The reversed line after the whitespace run; for a match it must start
with "morf", i.e. the line up to the whitespace must end in "from". -/
def afterWs (line : Line) : Line := (afterTok line).drop (wsR line).length

/-- Functional embedding of
`re.search(r'query\[.*?\].*?from\s+([\d.]+)$', line)` together with the
extraction of lines 70-71 of the source: on a match it returns
`(query_part, ip)` where `ip = match.group(1)` and
`query_part = line[:match.start(1)-6]`. -/
def parseQuery (line : Line) : Option (Line × Line) :=
  if tokR line = [] then none
  else if wsR line = [] then none
  else if (afterWs line).take 4 = ('m' :: 'o' :: 'r' :: 'f' :: []) then
    if hasQueryBracket ((afterWs line).drop 4).reverse then
      some (line.take (line.length - (tokR line).length - 6), (tokR line).reverse)
    else none
  else none

/-- The three block/deny phrases of line 77, checked case-insensitively
against the line (`'gravity blocked' in line.lower()` etc.). -/
def blockPhrase (line : Line) : Bool :=
  containsSub ('g' :: 'r' :: 'a' :: 'v' :: 'i' :: 't' :: 'y' :: ' ' :: 'b' :: 'l' :: 'o' :: 'c' :: 'k' :: 'e' :: 'd' :: []) (toLowerL line) ||
  containsSub ('e' :: 'x' :: 'a' :: 'c' :: 't' :: 'l' :: 'y' :: ' ' :: 'b' :: 'l' :: 'o' :: 'c' :: 'k' :: 'e' :: 'd' :: []) (toLowerL line) ||
  containsSub ('e' :: 'x' :: 'a' :: 'c' :: 't' :: 'l' :: 'y' :: ' ' :: 'd' :: 'e' :: 'n' :: 'i' :: 'e' :: 'd' :: []) (toLowerL line)

/-- The address-to-name cache `self.dns_cache` (a Python dict, keys unique;
modelled as an association list extended only at keys not yet present). -/
abbrev Cache := List (Line × Line)

/-- The per-source mutable state of a `PiHoleStreamer` instance that the
claims are about: `self.last_query_ip` and `self.dns_cache`. -/
structure SourceState where
  last_query_ip : Option Line
  dns_cache : Cache
deriving DecidableEq

/-- The state of a freshly constructed `PiHoleStreamer` (its `__init__`). -/
def emptyState : SourceState := { last_query_ip := none, dns_cache := [] }

/-- Embedding of `PiHoleStreamer.parse_log_line` (source lines 61-82).
Returns the optional `(query_part, ip, is_blocked)` tuple together with the
updated state (the Python method mutates `self.last_query_ip` in place).
`if self.last_query_ip:` is Python truthiness, false for `None` and for the
empty string, hence the emptiness test in the block branch. -/
def parse_log_line (st : SourceState) (line : Line) : Option (Line × Line × Bool) × SourceState :=
  match parseQuery line with
  | some (query_part, ip) =>
    (some (query_part, ip, false), { st with last_query_ip := some ip })
  | none =>
    if blockPhrase line then
      match st.last_query_ip with
      | some ip => if ip = [] then (none, st) else (some (line, ip, true), st)
      | none => (none, st)
    else (none, st)

/-- The two exception types caught at source line 57
(`socket.herror`, `socket.gaierror`): the "lookup error of any kind" of the
spec's resolver contract. -/
inductive LookupErr where
  | herror
  | gaierror

/-- The external reverse lookup `socket.gethostbyaddr(ip)[0]` (an external
collaborator per the spec): succeeds with a name or fails with a lookup
error. -/
abbrev Lookup := Line → Except LookupErr Line

/-- Dict membership/access `ip in self.dns_cache` / `self.dns_cache[ip]`. -/
def cacheFind : Cache → Line → Option Line
  | [], _ => none
  | (k, v) :: rest, ip => if k = ip then some v else cacheFind rest ip

/-- Embedding of `PiHoleStreamer.resolve_hostname` (source lines 48-59).
Returns the resolved name, the updated cache, and — as explicit effect
accounting for the caching claims — the number of external lookup
invocations performed by this call (0 or 1).  Lookup failures are caught
(negative caching), so the function is total: no error escapes. -/
def resolve_hostname (lookup : Lookup) (cache : Cache) (ip : Line) : Line × Cache × Nat :=
  match cacheFind cache ip with
  | some h => (h, cache, 0)
  | none =>
    match lookup ip with
    | Except.ok h => (h, cache ++ [(ip, h)], 1)
    | Except.error _ => (ip, cache ++ [(ip, ip)], 1)

/-- Number of external lookup invocations attributable to address `a` over a
whole sequence of `resolve_hostname` calls threading the cache. -/
def resolveFoldCalls (lookup : Lookup) (cache : Cache) (a : Line) : List Line → Nat
  | [] => 0
  | ip :: rest =>
    (if ip = a then (resolve_hostname lookup cache ip).2.2 else 0) +
      resolveFoldCalls lookup ((resolve_hostname lookup cache ip).2.1) a rest

/-- Repeated application of `parse_log_line` to a sequence of lines,
collecting the classified events in order (the implicit state machine of one
source). -/
def classifySeq (st : SourceState) : List Line → List (Line × Line × Bool) × SourceState
  | [] => ([], st)
  | l :: rest =>
    ((match (parse_log_line st l).1 with
      | some ev => ev :: (classifySeq (parse_log_line st l).2 rest).1
      | none => (classifySeq (parse_log_line st l).2 rest).1),
     (classifySeq (parse_log_line st l).2 rest).2)

/-- Python's `str.strip()` on a log line (source line 100). -/
def strip (l : Line) : Line :=
  ((l.dropWhile isSpaceChar).reverse.dropWhile isSpaceChar).reverse

/-- ANSI codes of the `Colors` class used by the formatter. -/
def ansiReset : Line := '\x1b' :: '[' :: '0' :: 'm' :: []

/-- ANSI bold. -/
def ansiBold : Line := '\x1b' :: '[' :: '1' :: 'm' :: []

/-- ANSI red. -/
def ansiRed : Line := '\x1b' :: '[' :: '9' :: '1' :: 'm' :: []

/-- ANSI yellow. -/
def ansiYellow : Line := '\x1b' :: '[' :: '9' :: '3' :: 'm' :: []

/-- ANSI cyan (the color passed to the first streamer). -/
def ansiCyan : Line := '\x1b' :: '[' :: '9' :: '6' :: 'm' :: []

/-- The host label of source line 123:
`f"{hostname} ({ip})" if hostname != ip else ip`. -/
def hostDisplay (hostname ip : Line) : Line :=
  if hostname ≠ ip then hostname ++ (' ' :: '(' :: []) ++ ip ++ (')' :: []) else ip

/-- The two f-strings of source lines 126-128 building a FormattedEvent
(blocked vs normal styling). -/
def formatEvent (color hn ts host_display query_part : Line) (blocked : Bool) : Line :=
  if blocked then
    ansiBold ++ ('[' :: []) ++ ts ++ (']' :: ' ' :: []) ++ color ++ ('[' :: []) ++ hn ++
      (']' :: []) ++ ansiReset ++ (' ' :: []) ++ ansiYellow ++ ('[' :: []) ++ host_display ++
      (']' :: []) ++ ansiReset ++ (' ' :: []) ++ ansiRed ++ query_part ++ ansiReset
  else
    ('[' :: []) ++ ts ++ (']' :: ' ' :: []) ++ color ++ ('[' :: []) ++ hn ++
      (']' :: []) ++ ansiReset ++ (' ' :: []) ++ ansiYellow ++ ('[' :: []) ++ host_display ++
      (']' :: []) ++ ansiReset ++ (' ' :: []) ++ query_part

/-- The f-string of source line 135 (verbose display of an unparsed line). -/
def formatVerbose (color hn ts line : Line) : Line :=
  ('[' :: []) ++ ts ++ (']' :: ' ' :: []) ++ color ++ ('[' :: []) ++ hn ++
    (']' :: []) ++ ansiReset ++ (' ' :: []) ++ line

/-- Configuration of one `stream_logs` call: the streamer's identity
(`self.hostname`, `self.color`) and the mode flags. -/
structure StreamCfg where
  hostname : Line
  color : Line
  show_blocked_only : Bool
  filter_host : Option Line
  verbose : Bool

/-- Python truthiness of `filter_host` (`None` and the empty string are
falsy). -/
def filterActive : Option Line → Bool
  | none => false
  | some f => if f = [] then false else true

/-- The keep/drop decision of source line 118:
`if filter_host and filter_host.lower() not in hostname.lower() and
filter_host != ip: continue` — the event is kept when that condition is
false. -/
def keepByFilter : Option Line → Line → Line → Bool
  | none, _, _ => true
  | some f, hostname, ip =>
    if f = [] then true
    else containsSub (toLowerL f) (toLowerL hostname) || f == ip

/-- Embedding of one iteration of the `while` loop of
`PiHoleStreamer.stream_logs` (source lines 95-136) on an already-read raw
line: returns the optional string pushed onto the merge queue and the
updated source state.  `ts` stands for `datetime.now().strftime(...)`,
taken as a parameter since it is wall-clock input. -/
def process_line (lookup : Lookup) (cfg : StreamCfg) (ts : Line) (st : SourceState)
    (raw : Line) : Option Line × SourceState :=
  if strip raw = [] then (none, st)
  else
    match parse_log_line st (strip raw) with
    | (some (query_part, ip, is_blocked), st1) =>
      if cfg.show_blocked_only && !is_blocked then (none, st1)
      else
        match resolve_hostname lookup st1.dns_cache ip with
        | (hostname, cache2, _) =>
          if keepByFilter cfg.filter_host hostname ip then
            (some (formatEvent cfg.color cfg.hostname ts (hostDisplay hostname ip) query_part is_blocked),
              { st1 with dns_cache := cache2 })
          else (none, { st1 with dns_cache := cache2 })
    | (none, st1) =>
      if cfg.verbose && !(filterActive cfg.filter_host) && !cfg.show_blocked_only then
        (some (formatVerbose cfg.color cfg.hostname ts (strip raw)), st1)
      else (none, st1)

/-- Running `stream_logs` over a finite list of timestamped raw lines,
collecting the strings pushed onto the merge queue in order. -/
def stream_logs_run (lookup : Lookup) (cfg : StreamCfg) (st : SourceState) :
    List (Line × Line) → List Line × SourceState
  | [] => ([], st)
  | (ts, raw) :: rest =>
    ((match (process_line lookup cfg ts st raw).1 with
      | some x => x :: (stream_logs_run lookup cfg (process_line lookup cfg ts st raw).2 rest).1
      | none => (stream_logs_run lookup cfg (process_line lookup cfg ts st raw).2 rest).1),
     (stream_logs_run lookup cfg (process_line lookup cfg ts st raw).2 rest).2)

/-- Modelled from the spec: "address tokens are validated as dotted-decimal"
(section 4.1).  A dotted-decimal address is four non-empty runs of digits
separated by dots.  This definition follows the spec's words, to be compared
with what the code's character class `[\d.]+` actually accepts. -/
def specDottedDecimal (l : Line) : Bool :=
  match (l.splitOn '.').map (fun g => !g.isEmpty && g.all Char.isDigit) with
  | [a, b, c, d] => a && b && c && d
  | _ => false

/-- Declarative reading of the query pattern
`query\[.*?\].*?from\s+([\d.]+)$`: the line splits as
`a ++ "query[" ++ b ++ "]" ++ c ++ "from" ++ w ++ ip` with `w` non-empty
whitespace and `ip` the non-empty trailing digits-and-dots token.  This is
the "query[...] marker followed eventually by from <addr> at end of line"
of the claims. -/
def QueryPattern (line ip : Line) : Prop :=
  ∃ a b c w, line = a ++ queryMark ++ b ++ (']' :: []) ++ c ++ fromMark ++ w ++ ip ∧
    w ≠ [] ∧ (∀ x ∈ w, isSpaceChar x = true) ∧
    ip ≠ [] ∧ (∀ x ∈ ip, isDigitDot x = true)

/-- The query line of the end-to-end scenario (spec section 8). -/
def lineQ : Line := "Oct  4 14:18:46: query[A] example.com from 192.168.1.100".toList

/-- The block line of the end-to-end scenario (spec section 8). -/
def lineB : Line := "Oct  4 14:18:47: gravity blocked ads.example.com is 0.0.0.0".toList

/-- The address of the end-to-end scenario. -/
def scnIp : Line := "192.168.1.100".toList

/-- The resolver mock of the end-to-end scenario: maps `192.168.1.100` to
`laptop.local` and fails on everything else. -/
def mockLookup : Lookup := fun ip =>
  if ip = scnIp then Except.ok ("laptop.local".toList) else Except.error LookupErr.herror

/-- Configuration of the end-to-end scenario: no filters, not verbose. -/
def cfgScenario : StreamCfg :=
  { hostname := "pihole1".toList, color := ansiCyan, show_blocked_only := false,
    filter_host := none, verbose := false }

/-- Configuration of the blocked-only scenario. -/
def cfgBlockedOnly : StreamCfg :=
  { hostname := "pihole1".toList, color := ansiCyan, show_blocked_only := true,
    filter_host := none, verbose := false }

-- Sanity checks on concrete inputs (kept as plain examples).
example :
    parseQuery ("query[A] example.com from 192.168.1.100".toList) =
      some ("query[A] example.com".toList, "192.168.1.100".toList) := by decide

example :
    parseQuery ("Oct  4 14:18:46: query[A] example.com from 192.168.1.100".toList) =
      some ("Oct  4 14:18:46: query[A] example.com".toList, "192.168.1.100".toList) := by decide

example :
    parseQuery ("Oct  4 14:18:47: gravity blocked ads.example.com is 0.0.0.0".toList) = none := by
  decide

example : blockPhrase ("Oct  4 14:18:47: GRAVITY Blocked ads.example.com is 0.0.0.0".toList) = true := by
  decide

example :
    parse_log_line emptyState ("query[A] example.com from .....".toList) =
      (some ("query[A] example.com".toList, ".....".toList, false),
        { last_query_ip := some (".....".toList), dns_cache := [] }) := by decide

example :
    stream_logs_run mockLookup cfgBlockedOnly emptyState
      [("14:18:46".toList, lineQ), ("14:18:47".toList, lineB)] =
    ([formatEvent ansiCyan ("pihole1".toList) ("14:18:47".toList)
        ("laptop.local (192.168.1.100)".toList) lineB true],
      { last_query_ip := some scnIp,
        dns_cache := [(scnIp, "laptop.local".toList)] }) := by decide

example :
    stream_logs_run mockLookup cfgScenario emptyState
      [("14:18:46".toList, lineQ), ("14:18:47".toList, lineB)] =
    ([formatEvent ansiCyan ("pihole1".toList) ("14:18:46".toList)
        ("laptop.local (192.168.1.100)".toList)
        ("Oct  4 14:18:46: query[A] example.com".toList) false,
      formatEvent ansiCyan ("pihole1".toList) ("14:18:47".toList)
        ("laptop.local (192.168.1.100)".toList) lineB true],
      { last_query_ip := some scnIp,
        dns_cache := [(scnIp, "laptop.local".toList)] }) := by decide

example : specDottedDecimal (".....".toList) = false := by decide
example : specDottedDecimal scnIp = true := by decide

/-- Auxiliary: `takeWhile` over a block of satisfying characters followed by
a failing character takes exactly the block. -/
theorem takeWhile_all_cons_neg (p : Char → Bool) :
    ∀ (xs : Line) (y : Char) (ys : Line), (∀ x ∈ xs, p x = true) → p y = false →
      (xs ++ y :: ys).takeWhile p = xs := by
  intro xs
  induction xs with
  | nil =>
    intro y ys _ hy
    simp [List.takeWhile_cons, hy]
  | cons a t ih =>
    intro y ys hall hy
    have ha : p a = true := hall a (by simp)
    have ht : ∀ x ∈ t, p x = true := fun x hx => hall x (by simp [hx])
    simp [List.takeWhile_cons, ha, ih y ys ht hy]

/-- Auxiliary: a list is its `takeWhile` followed by the `drop` of that
length. -/
theorem takeWhile_drop_eq (p : Char → Bool) :
    ∀ l : Line, l.takeWhile p ++ l.drop (l.takeWhile p).length = l := by
  intro l
  induction l with
  | nil => rfl
  | cons a t ih =>
    by_cases h : p a = true
    · simp [List.takeWhile_cons, h, ih]
    · simp at h
      simp [List.takeWhile_cons, h]

/-- Auxiliary: every element of `takeWhile p l` satisfies `p`. -/
theorem mem_takeWhile_pred (p : Char → Bool) :
    ∀ (l : Line) (x : Char), x ∈ l.takeWhile p → p x = true := by
  intro l
  induction l with
  | nil => intro x hx; simp [List.takeWhile] at hx
  | cons a t ih =>
    intro x hx
    by_cases h : p a = true
    · rw [List.takeWhile_cons, if_pos h] at hx
      rcases List.mem_cons.mp hx with h1 | h1
      · exact h1 ▸ h
      · exact ih x h1
    · simp at h
      rw [List.takeWhile_cons, if_neg (by simp [h])] at hx
      simp at hx

/-- Auxiliary: a list starts with itself followed by anything. -/
theorem startsWith_append_self : ∀ n y : Line, startsWith n (n ++ y) = true := by
  intro n
  induction n with
  | nil => intro y; rfl
  | cons a t ih => intro y; simp [startsWith, ih]

/-- Auxiliary: `startsWith` gives an append decomposition. -/
theorem startsWith_decomp : ∀ n h : Line, startsWith n h = true → ∃ t, h = n ++ t := by
  intro n
  induction n with
  | nil => intro h _; exact ⟨h, rfl⟩
  | cons a t ih =>
    intro h hs
    match h with
    | [] => simp [startsWith] at hs
    | c :: hs2 =>
      rw [startsWith] at hs
      by_cases hac : a = c
      · subst hac
        rw [if_pos rfl] at hs
        obtain ⟨u, hu⟩ := ih hs2 hs
        exact ⟨u, by simp [hu]⟩
      · rw [if_neg hac] at hs
        exact absurd hs (by simp)

/-- Auxiliary: `drop` distributes over an append when dropping at most the
first part. -/
theorem drop_append_le : ∀ (k : Nat) (xs ys : Line), k ≤ xs.length →
    (xs ++ ys).drop k = xs.drop k ++ ys := by
  intro k
  induction k with
  | zero => intro xs ys _; rfl
  | succ n ih =>
    intro xs ys hk
    match xs with
    | [] => simp at hk
    | a :: t =>
      simp only [List.cons_append, List.drop_succ_cons]
      exact ih t ys (Nat.le_of_succ_le_succ hk)

/-- Auxiliary: `dropThrough` at an occurrence right at the front. -/
theorem dropThrough_self_append (n : Line) (hn : n ≠ []) (y : Line) :
    dropThrough n (n ++ y) = some y := by
  match n, hn with
  | m :: ns, _ =>
    have hsw : startsWith (m :: ns) ((m :: ns) ++ y) = true := startsWith_append_self _ _
    simp only [List.cons_append] at hsw ⊢
    rw [dropThrough, if_pos hsw]
    simp [List.drop_left]

/-- Auxiliary: `dropThrough` finds an occurrence when one exists, and what
comes after the given occurrence is contained in the returned remainder. -/
theorem dropThrough_found (n : Line) (hn : n ≠ []) :
    ∀ a y : Line, ∃ r, dropThrough n (a ++ n ++ y) = some r ∧ ∀ x ∈ y, x ∈ r := by
  intro a
  induction a with
  | nil =>
    intro y
    refine ⟨y, ?_, fun x hx => hx⟩
    simpa using dropThrough_self_append n hn y
  | cons c a2 ih =>
    intro y
    by_cases hs : startsWith n (c :: (a2 ++ n ++ y)) = true
    · refine ⟨(c :: (a2 ++ n ++ y)).drop n.length, ?_, ?_⟩
      · show dropThrough n (c :: (a2 ++ n ++ y)) = _
        rw [dropThrough, if_pos hs]
      · intro x hx
        have hshape : c :: (a2 ++ n ++ y) = ((c :: a2) ++ n) ++ y := by simp
        have hlen : n.length ≤ ((c :: a2) ++ n).length := by simp; omega
        rw [hshape, drop_append_le n.length ((c :: a2) ++ n) y hlen]
        exact List.mem_append_right _ hx
    · obtain ⟨r, hr, hmem⟩ := ih y
      refine ⟨r, ?_, hmem⟩
      show dropThrough n (c :: (a2 ++ n ++ y)) = some r
      rw [dropThrough, if_neg (by simpa using hs)]
      exact hr

/-- Auxiliary: a list containing a close bracket passes `hasCloseBracket`. -/
theorem hasCloseBracket_of_mem : ∀ l : Line, ']' ∈ l → hasCloseBracket l = true := by
  intro l
  induction l with
  | nil => intro h; simp at h
  | cons a t ih =>
    intro h
    rcases List.mem_cons.mp h with h1 | h1
    · rw [hasCloseBracket, if_pos h1.symm]
    · rw [hasCloseBracket]
      by_cases ha : a = ']'
      · rw [if_pos ha]
      · rw [if_neg ha]; exact ih h1

/-- Auxiliary: text of the shape `a ++ "query[" ++ b ++ "]" ++ c` passes
`hasQueryBracket`. -/
theorem hasQueryBracket_of_decomp (a b c : Line) :
    hasQueryBracket (a ++ queryMark ++ b ++ (']' :: []) ++ c) = true := by
  have hshape : a ++ queryMark ++ b ++ (']' :: []) ++ c =
      a ++ queryMark ++ (b ++ (']' :: []) ++ c) := by simp
  obtain ⟨r, hr, hmem⟩ :=
    dropThrough_found queryMark (by simp [queryMark]) a (b ++ (']' :: []) ++ c)
  rw [hasQueryBracket, hshape, show a ++ queryMark ++ (b ++ (']' :: []) ++ c) =
    a ++ queryMark ++ (b ++ (']' :: []) ++ c) from rfl]
  rw [show (a ++ queryMark) ++ (b ++ (']' :: []) ++ c) = a ++ queryMark ++ (b ++ (']' :: []) ++ c) from by simp] at hr
  rw [hr]
  exact hasCloseBracket_of_mem r (hmem ']' (by simp))

/-- Auxiliary: whitespace characters are not in the `[\d.]` class. -/
theorem space_not_digitdot (c : Char) (h : isSpaceChar c = true) : isDigitDot c = false := by
  rw [isSpaceChar] at h
  simp only [Bool.or_eq_true, beq_iff_eq] at h
  rcases h with ((((h | h) | h) | h) | h) | h <;> subst h <;> decide

/-- Auxiliary: the functional parser succeeds on every line of the
declarative query-pattern shape, returning the trailing token as address. -/
theorem parseQuery_of_pattern (line ip : Line) (h : QueryPattern line ip) :
    ∃ d, parseQuery line = some (d, ip) := by
  obtain ⟨a, b, c, w, hline, hw, hwsp, hip, hipd⟩ := h
  obtain ⟨y, ys, hwrev⟩ : ∃ y ys, w.reverse = y :: ys := by
    cases hwr : w.reverse with
    | nil => exact absurd (by simpa using hwr) hw
    | cons y ys => exact ⟨y, ys, rfl⟩
  have hy_mem : y ∈ w := by rw [← List.mem_reverse, hwrev]; simp
  have hy : isDigitDot y = false := space_not_digitdot y (hwsp y hy_mem)
  have hrev : line.reverse = ip.reverse ++
      (w.reverse ++ ('m' :: 'o' :: 'r' :: 'f' ::
        (a ++ queryMark ++ b ++ (']' :: []) ++ c).reverse)) := by
    subst hline
    simp [fromMark, List.reverse_append, List.append_assoc]
  have htok : tokR line = ip.reverse := by
    rw [tokR, hrev, hwrev]
    have hmem : ∀ x ∈ ip.reverse, isDigitDot x = true :=
      fun x hx => hipd x (List.mem_reverse.mp hx)
    exact takeWhile_all_cons_neg isDigitDot ip.reverse y
      (ys ++ ('m' :: 'o' :: 'r' :: 'f' ::
        (a ++ queryMark ++ b ++ (']' :: []) ++ c).reverse)) hmem hy
  have hat : afterTok line = w.reverse ++ ('m' :: 'o' :: 'r' :: 'f' ::
      (a ++ queryMark ++ b ++ (']' :: []) ++ c).reverse) := by
    rw [afterTok, htok, hrev, List.drop_left]
  have hws2 : wsR line = w.reverse := by
    rw [wsR, hat]
    have hmem : ∀ x ∈ w.reverse, isSpaceChar x = true :=
      fun x hx => hwsp x (List.mem_reverse.mp hx)
    exact takeWhile_all_cons_neg isSpaceChar w.reverse 'm'
      ('o' :: 'r' :: 'f' :: (a ++ queryMark ++ b ++ (']' :: []) ++ c).reverse) hmem (by decide)
  have haw : afterWs line = 'm' :: 'o' :: 'r' :: 'f' ::
      (a ++ queryMark ++ b ++ (']' :: []) ++ c).reverse := by
    rw [afterWs, hws2, hat, List.drop_left]
  have htake : (afterWs line).take 4 = ('m' :: 'o' :: 'r' :: 'f' :: []) := by
    rw [haw]; exact rfl
  have hdrop : (afterWs line).drop 4 = (a ++ queryMark ++ b ++ (']' :: []) ++ c).reverse := by
    rw [haw]; exact rfl
  have hq : hasQueryBracket ((afterWs line).drop 4).reverse = true := by
    rw [hdrop, List.reverse_reverse]
    exact hasQueryBracket_of_decomp a b c
  have h1 : ¬(tokR line = []) := by
    rw [htok]; intro hh; exact hip (by simpa using hh)
  have h2 : ¬(wsR line = []) := by
    rw [hws2]; intro hh; exact hw (by simpa using hh)
  refine ⟨line.take (line.length - (tokR line).length - 6), ?_⟩
  rw [parseQuery, if_neg h1, if_neg h2, if_pos htake, if_pos hq, htok, List.reverse_reverse]

/-- Auxiliary: inversion of the functional parser — a successful parse
forces the line to end in `"from" ++ whitespace ++ ip` with `ip` a
non-empty digits-and-dots token. -/
theorem parseQuery_inv (line d ip : Line) (h : parseQuery line = some (d, ip)) :
    ∃ pre w, line = pre ++ fromMark ++ w ++ ip ∧
      w ≠ [] ∧ (∀ x ∈ w, isSpaceChar x = true) ∧
      ip ≠ [] ∧ (∀ x ∈ ip, isDigitDot x = true) := by
  rw [parseQuery] at h
  by_cases h1 : tokR line = []
  · rw [if_pos h1] at h; exact absurd h (by simp)
  rw [if_neg h1] at h
  by_cases h2 : wsR line = []
  · rw [if_pos h2] at h; exact absurd h (by simp)
  rw [if_neg h2] at h
  by_cases h3 : (afterWs line).take 4 = ('m' :: 'o' :: 'r' :: 'f' :: [])
  case neg => rw [if_neg h3] at h; exact absurd h (by simp)
  rw [if_pos h3] at h
  by_cases h4 : hasQueryBracket ((afterWs line).drop 4).reverse = true
  case neg => rw [if_neg h4] at h; exact absurd h (by simp)
  rw [if_pos h4] at h
  have hip : (tokR line).reverse = ip := by
    have := h
    simp only [Option.some.injEq, Prod.mk.injEq] at this
    exact this.2
  have e1 : line.reverse = tokR line ++ afterTok line := by
    rw [afterTok, tokR]
    exact (takeWhile_drop_eq isDigitDot line.reverse).symm
  have e2 : afterTok line = wsR line ++ afterWs line := by
    rw [afterWs, wsR]
    exact (takeWhile_drop_eq isSpaceChar (afterTok line)).symm
  have e3 : afterWs line = ('m' :: 'o' :: 'r' :: 'f' :: []) ++ (afterWs line).drop 4 := by
    conv_lhs => rw [← List.take_append_drop 4 (afterWs line)]
    rw [h3]
  have hline : line = ((afterWs line).drop 4).reverse ++ fromMark ++
      (wsR line).reverse ++ (tokR line).reverse := by
    have hr : line.reverse = tokR line ++ (wsR line ++
        (('m' :: 'o' :: 'r' :: 'f' :: []) ++ (afterWs line).drop 4)) := by
      rw [e1, e2, ← e3]
    calc line = line.reverse.reverse := (List.reverse_reverse line).symm
    _ = (tokR line ++ (wsR line ++
        (('m' :: 'o' :: 'r' :: 'f' :: []) ++ (afterWs line).drop 4))).reverse := by rw [hr]
    _ = ((afterWs line).drop 4).reverse ++ fromMark ++
        (wsR line).reverse ++ (tokR line).reverse := by
      simp [fromMark, List.reverse_append, List.append_assoc]
  refine ⟨((afterWs line).drop 4).reverse, (wsR line).reverse, ?_, ?_, ?_, ?_, ?_⟩
  · rw [← hip]; exact hline
  · intro hh; exact h2 (by simpa using hh)
  · intro x hx
    exact mem_takeWhile_pred isSpaceChar (afterTok line) x (List.mem_reverse.mp hx)
  · intro hh; rw [← hip] at hh; exact h1 (by simpa using hh)
  · intro x hx
    rw [← hip] at hx
    exact mem_takeWhile_pred isDigitDot line.reverse x (List.mem_reverse.mp hx)

/-- Auxiliary: the address of a successful parse is non-empty. -/
theorem parseQuery_ip_ne_nil (line d ip : Line) (h : parseQuery line = some (d, ip)) :
    ip ≠ [] := by
  obtain ⟨_, _, _, _, _, h5, _⟩ := parseQuery_inv line d ip h
  exact h5

/-- Auxiliary: inversion of `parse_log_line` — a non-blocked event can only
come from the query branch, which also fixes the state update. -/
theorem parse_log_line_query_inv (st : SourceState) (l d ip : Line) (st2 : SourceState)
    (h : parse_log_line st l = (some (d, ip, false), st2)) :
    parseQuery l = some (d, ip) ∧ st2 = { st with last_query_ip := some ip } := by
  rw [parse_log_line] at h
  cases hq : parseQuery l with
  | some pr =>
    obtain ⟨q, i⟩ := pr
    rw [hq] at h
    simp only [Prod.mk.injEq, Option.some.injEq] at h
    obtain ⟨⟨hd, hi, _⟩, hst⟩ := h
    subst hd; subst hi
    exact ⟨rfl, hst.symm⟩
  | none =>
    rw [hq] at h
    exfalso
    by_cases hb : blockPhrase l = true
    · cases hl : st.last_query_ip with
      | some i0 =>
        by_cases hi : i0 = []
        · simp [hb, hl, hi] at h
        · simp [hb, hl, hi] at h
      | none => simp [hb, hl] at h
    · simp [hb] at h

/-- Auxiliary: a line that does not match the query pattern never changes
the source state. -/
theorem parse_log_line_frame (st : SourceState) (l : Line) (h : parseQuery l = none) :
    (parse_log_line st l).2 = st := by
  rw [parse_log_line, h]
  by_cases hb : blockPhrase l = true
  · cases hl : st.last_query_ip with
    | some ip => by_cases hi : ip = [] <;> simp [hb, hl, hi]
    | none => simp [hb, hl]
  · simp [hb]

/-- Auxiliary: one classification step on a block/deny line (no query match,
phrase present) with a remembered non-empty address emits a Block carrying
that address and leaves the state unchanged. -/
theorem parse_log_line_block_step (st : SourceState) (addr l : Line)
    (hst : st.last_query_ip = some addr) (haddr : addr ≠ [])
    (hq : parseQuery l = none) (hb : blockPhrase l = true) :
    parse_log_line st l = (some (l, addr, true), st) := by
  rw [parse_log_line, hq]
  simp [hb, hst, haddr]

/-- Auxiliary: classifying any sequence of lines that do not match the query
pattern leaves the state unchanged. -/
theorem classifySeq_frame (st : SourceState) :
    ∀ ls : List Line, (∀ l ∈ ls, parseQuery l = none) → (classifySeq st ls).2 = st := by
  intro ls
  induction ls generalizing st with
  | nil => intro _; rfl
  | cons l rest ih =>
    intro hall
    have hfr : (parse_log_line st l).2 = st := parse_log_line_frame st l (hall l (by simp))
    show (classifySeq (parse_log_line st l).2 rest).2 = st
    rw [hfr]
    exact ih st (fun x hx => hall x (by simp [hx]))

/-- Auxiliary: a run of block/deny lines after a remembered address emits a
Block for each line, all carrying that same address, without touching the
state. -/
theorem classifySeq_blocks (st : SourceState) (addr : Line)
    (hst : st.last_query_ip = some addr) (haddr : addr ≠ []) :
    ∀ bl : List Line, (∀ l ∈ bl, parseQuery l = none ∧ blockPhrase l = true) →
      classifySeq st bl = (bl.map (fun l => (l, addr, true)), st) := by
  intro bl
  induction bl with
  | nil => intro _; rfl
  | cons b rest ih =>
    intro hall
    obtain ⟨hbq, hbp⟩ := hall b (by simp)
    have hstep := parse_log_line_block_step st addr b hst haddr hbq hbp
    rw [classifySeq, hstep, ih (fun x hx => hall x (by simp [hx]))]
    simp

/-- Auxiliary: block/deny lines on a state with no remembered address emit
nothing and change nothing, however many there are. -/
theorem classifySeq_orphan (st : SourceState) (hst : st.last_query_ip = none) :
    ∀ bl : List Line, (∀ l ∈ bl, parseQuery l = none ∧ blockPhrase l = true) →
      classifySeq st bl = ([], st) := by
  intro bl
  induction bl with
  | nil => intro _; rfl
  | cons b rest ih =>
    intro hall
    obtain ⟨hbq, hbp⟩ := hall b (by simp)
    have hstep : parse_log_line st b = (none, st) := by
      rw [parse_log_line, hbq]
      simp [hbp, hst]
    rw [classifySeq, hstep, ih (fun x hx => hall x (by simp [hx]))]

/-- Auxiliary: a cache extended at a fresh key finds the new value. -/
theorem cacheFind_append_of_none (c : Cache) (k v : Line) (h : cacheFind c k = none) :
    cacheFind (c ++ [(k, v)]) k = some v := by
  induction c with
  | nil => simp [cacheFind]
  | cons p rest ih =>
    obtain ⟨k0, v0⟩ := p
    rw [cacheFind] at h
    by_cases hk : k0 = k
    · rw [if_pos hk] at h; exact absurd h (by simp)
    · rw [if_neg hk] at h
      show cacheFind ((k0, v0) :: (rest ++ [(k, v)])) k = some v
      rw [cacheFind, if_neg hk]
      exact ih h

/-- Auxiliary: cache hits survive any extension of the cache. -/
theorem cacheFind_mono (c d : Cache) (k v : Line) (h : cacheFind c k = some v) :
    cacheFind (c ++ d) k = some v := by
  induction c with
  | nil => simp [cacheFind] at h
  | cons p rest ih =>
    obtain ⟨k0, v0⟩ := p
    rw [cacheFind] at h
    show cacheFind ((k0, v0) :: (rest ++ d)) k = some v
    rw [cacheFind]
    by_cases hk : k0 = k
    · rw [if_pos hk] at h ⊢; exact h
    · rw [if_neg hk] at h ⊢; exact ih h

/-- Auxiliary: a cache hit resolves without any external lookup and without
changing the cache. -/
theorem resolve_hit (lookup : Lookup) (c : Cache) (ip v : Line)
    (h : cacheFind c ip = some v) : resolve_hostname lookup c ip = (v, c, 0) := by
  rw [resolve_hostname, h]

/-- Auxiliary: after any resolution the address is in the cache and maps to
the returned name. -/
theorem resolve_caches (lookup : Lookup) (c : Cache) (ip : Line) :
    cacheFind (resolve_hostname lookup c ip).2.1 ip = some (resolve_hostname lookup c ip).1 := by
  rw [resolve_hostname]
  cases hc : cacheFind c ip with
  | some v => exact hc
  | none =>
    cases hl : lookup ip with
    | ok h => exact cacheFind_append_of_none c ip h hc
    | error e => exact cacheFind_append_of_none c ip ip hc

/-- Auxiliary: resolution only ever appends to the cache. -/
theorem resolve_cache_extends (lookup : Lookup) (c : Cache) (ip : Line) :
    ∃ d, (resolve_hostname lookup c ip).2.1 = c ++ d := by
  rw [resolve_hostname]
  cases hc : cacheFind c ip with
  | some v => exact ⟨[], by simp⟩
  | none =>
    cases hl : lookup ip with
    | ok h => exact ⟨[(ip, h)], rfl⟩
    | error e => exact ⟨[(ip, ip)], rfl⟩

/-- Auxiliary: a single resolution performs at most one external lookup. -/
theorem resolve_calls_le_one (lookup : Lookup) (c : Cache) (ip : Line) :
    (resolve_hostname lookup c ip).2.2 ≤ 1 := by
  rw [resolve_hostname]
  cases hc : cacheFind c ip with
  | some v => exact Nat.zero_le 1
  | none =>
    cases hl : lookup ip with
    | ok h => exact Nat.le_refl 1
    | error e => exact Nat.le_refl 1

/-- Auxiliary: once an address is cached, an arbitrary further sequence of
resolutions performs no external lookup for it. -/
theorem resolveFoldCalls_zero (lookup : Lookup) (a : Line) :
    ∀ (ips : List Line) (c : Cache) (v : Line), cacheFind c a = some v →
      resolveFoldCalls lookup c a ips = 0 := by
  intro ips
  induction ips with
  | nil => intro c v _; rfl
  | cons ip rest ih =>
    intro c v hv
    rw [resolveFoldCalls]
    obtain ⟨d, hd⟩ := resolve_cache_extends lookup c ip
    have hnext : cacheFind (resolve_hostname lookup c ip).2.1 a = some v := by
      rw [hd]; exact cacheFind_mono c d a v hv
    by_cases hip : ip = a
    · subst hip
      rw [resolve_hit lookup c ip v hv]
      simpa using ih c v hv
    · rw [if_neg hip]
      simpa using ih _ v hnext

/-- Auxiliary: over any sequence of resolutions sharing one cache, at most
one external lookup is performed for any fixed address. -/
theorem resolveFoldCalls_le_one (lookup : Lookup) (a : Line) :
    ∀ (ips : List Line) (c : Cache), resolveFoldCalls lookup c a ips ≤ 1 := by
  intro ips
  induction ips with
  | nil => intro c; exact Nat.zero_le 1
  | cons ip rest ih =>
    intro c
    rw [resolveFoldCalls]
    by_cases hip : ip = a
    · subst hip
      rw [if_pos rfl]
      have hzero : resolveFoldCalls lookup ((resolve_hostname lookup c ip).2.1) ip rest = 0 :=
        resolveFoldCalls_zero lookup ip rest _ _ (resolve_caches lookup c ip)
      rw [hzero]
      simpa using resolve_calls_le_one lookup c ip
    · rw [if_neg hip]
      simpa using ih ((resolve_hostname lookup c ip).2.1)

/-- Claim C1: for every line matching the query pattern (a query[...] marker
followed eventually by "from <addr>" at end of line), classify returns a
Query event whose address equals the trailing address token addr, and sets
the source state's last-query-address to addr. -/
theorem claim_C1_query_classify (st : SourceState) (line ip : Line)
    (h : QueryPattern line ip) :
    ∃ d, parse_log_line st line =
      (some (d, ip, false), { st with last_query_ip := some ip }) := by
  obtain ⟨d, hd⟩ := parseQuery_of_pattern line ip h
  refine ⟨d, ?_⟩
  rw [parse_log_line, hd]

/-- Witness for C1: the scenario query line, whose trailing token is
192.168.1.100, classified on the fresh state. -/
theorem claim_C1_query_classify_witness :
    ∃ d, parse_log_line emptyState lineQ =
      (some (d, scnIp, false), { emptyState with last_query_ip := some scnIp }) := by
  apply claim_C1_query_classify
  exact ⟨"Oct  4 14:18:46: ".toList, "A".toList, " example.com ".toList, " ".toList,
    by decide, by decide, by decide, by decide, by decide⟩

/-- Claim C9 (amended): classify returns a Query event only when the
"from <token>" sequence is anchored at the end of the line — the line must
literally end in "from", whitespace, then the token; the token is a
non-empty run of digits and dots, but it is NOT validated as a well-formed
dotted-decimal address (see the counterexample, where "....." matches). -/
theorem claim_C9_query_anchored (st : SourceState) (line d ip : Line) (st2 : SourceState)
    (h : parse_log_line st line = (some (d, ip, false), st2)) :
    ∃ pre w, line = pre ++ fromMark ++ w ++ ip ∧ w ≠ [] ∧
      (∀ x ∈ w, isSpaceChar x = true) ∧ ip ≠ [] ∧ (∀ x ∈ ip, isDigitDot x = true) := by
  obtain ⟨hq, _⟩ := parse_log_line_query_inv st line d ip st2 h
  exact parseQuery_inv line d ip hq

/-- Counterexample for C9: the malformed trailing token "....." is not a
dotted-decimal address, yet the line matches and classifies as a Query with
address ".....". -/
theorem claim_C9_counterexample :
    parse_log_line emptyState ("query[A] example.com from .....".toList) =
      (some ("query[A] example.com".toList, ".....".toList, false),
        { last_query_ip := some (".....".toList), dns_cache := [] }) ∧
    specDottedDecimal (".....".toList) = false := ⟨by decide, by decide⟩

/-- Witness for C9 (amended): anchoring extracted from the classified
scenario query line. -/
theorem claim_C9_query_anchored_witness :
    ∃ pre w, lineQ = pre ++ fromMark ++ w ++ scnIp ∧ w ≠ [] ∧
      (∀ x ∈ w, isSpaceChar x = true) ∧ scnIp ≠ [] ∧ (∀ x ∈ scnIp, isDigitDot x = true) :=
  claim_C9_query_anchored emptyState lineQ ("Oct  4 14:18:46: query[A] example.com".toList)
    scnIp { last_query_ip := some scnIp, dns_cache := [] } (by decide)

/-- Claim C10: classifying a line through the block/deny branch never
modifies the source state (in particular last-query-address; only Query
lines update it), and consequently every block line in a consecutive run of
block lines following a single Query is associated with that query's
address. -/
theorem claim_C10_block_frame :
    (∀ (st : SourceState) (l : Line), parseQuery l = none →
      (parse_log_line st l).2 = st) ∧
    (∀ (st : SourceState) (q dq addr : Line) (st1 : SourceState) (bl : List Line),
      parse_log_line st q = (some (dq, addr, false), st1) →
      (∀ l ∈ bl, parseQuery l = none ∧ blockPhrase l = true) →
      classifySeq st1 bl = (bl.map (fun l => (l, addr, true)), st1)) := by
  constructor
  · exact parse_log_line_frame
  · intro st q dq addr st1 bl hq hbl
    obtain ⟨hpq, hst1⟩ := parse_log_line_query_inv st q dq addr st1 hq
    have haddr : addr ≠ [] := parseQuery_ip_ne_nil q dq addr hpq
    have hlast : st1.last_query_ip = some addr := by rw [hst1]
    exact classifySeq_blocks st1 addr hlast haddr bl hbl

/-- Witness for C10: the scenario block line does not move the fresh state,
and after the scenario query line a run of two block lines yields two Blocks
with the query's address, state untouched. -/
theorem claim_C10_block_frame_witness :
    ((parse_log_line emptyState lineB).2 = emptyState) ∧
    (classifySeq { last_query_ip := some scnIp, dns_cache := [] } [lineB, lineB] =
      ([(lineB, scnIp, true), (lineB, scnIp, true)],
        { last_query_ip := some scnIp, dns_cache := [] })) := by
  constructor
  · exact claim_C10_block_frame.1 emptyState lineB (by decide)
  · exact claim_C10_block_frame.2 emptyState lineQ
      ("Oct  4 14:18:46: query[A] example.com".toList) scnIp
      { last_query_ip := some scnIp, dns_cache := [] } [lineB, lineB]
      (by decide) (by decide)

/-- Counterexample for C2: a line containing the phrase "gravity blocked"
(hence a block/deny line by the claim's definition) that also matches the
query pattern.  Even though a prior Query with address 1.1.1.1 was
classified on this state, classify returns a Query event with address
2.2.2.2, not a Block with address 1.1.1.1 — the query branch is tested
first. -/
theorem claim_C2_counterexample :
    parse_log_line emptyState ("Oct: query[A] one.com from 1.1.1.1".toList) =
      (some ("Oct: query[A] one.com".toList, "1.1.1.1".toList, false),
        { last_query_ip := some ("1.1.1.1".toList), dns_cache := [] }) ∧
    blockPhrase ("gravity blocked query[A] two.com from 2.2.2.2".toList) = true ∧
    (parse_log_line { last_query_ip := some ("1.1.1.1".toList), dns_cache := [] }
        ("gravity blocked query[A] two.com from 2.2.2.2".toList)).1 =
      some ("gravity blocked query[A] two.com".toList, "2.2.2.2".toList, false) ∧
    ("2.2.2.2".toList : Line) ≠ "1.1.1.1".toList :=
  ⟨by decide, by decide, by decide, by decide⟩

/-- Claim C2 (amended): for every block/deny line that does not itself match
the query pattern, if a prior Query was classified on the same state,
classify returns a Block whose address is the most recent query's address,
no matter how many non-matching lines were classified in between. -/
theorem claim_C2_block_assoc (st : SourceState) (q dq addr : Line) (st1 : SourceState)
    (mids : List Line) (b : Line)
    (hq : parse_log_line st q = (some (dq, addr, false), st1))
    (hmids : ∀ l ∈ mids, parseQuery l = none)
    (hbp : blockPhrase b = true) (hbq : parseQuery b = none) :
    parse_log_line (classifySeq st1 mids).2 b =
      (some (b, addr, true), (classifySeq st1 mids).2) := by
  obtain ⟨hpq, hst1⟩ := parse_log_line_query_inv st q dq addr st1 hq
  have haddr : addr ≠ [] := parseQuery_ip_ne_nil q dq addr hpq
  have hframe : (classifySeq st1 mids).2 = st1 := classifySeq_frame st1 mids hmids
  rw [hframe]
  have hlast : st1.last_query_ip = some addr := by rw [hst1]
  exact parse_log_line_block_step st1 addr b hlast haddr hbq hbp

/-- Witness for C2 (amended): scenario query line, two intervening
non-matching lines, then the scenario gravity-blocked line. -/
theorem claim_C2_block_assoc_witness :
    parse_log_line (classifySeq { last_query_ip := some scnIp, dns_cache := [] }
        ["cached example.com".toList, "reply example.com is NODATA".toList]).2 lineB =
      (some (lineB, scnIp, true),
        (classifySeq { last_query_ip := some scnIp, dns_cache := [] }
          ["cached example.com".toList, "reply example.com is NODATA".toList]).2) :=
  claim_C2_block_assoc emptyState lineQ ("Oct  4 14:18:46: query[A] example.com".toList)
    scnIp { last_query_ip := some scnIp, dns_cache := [] }
    ["cached example.com".toList, "reply example.com is NODATA".toList] lineB
    (by decide) (by decide) (by decide) (by decide)

/-- Counterexample for C3: a line containing the phrase "exactly denied"
(hence a block/deny line by the claim's definition) that also matches the
query pattern.  Classified on the fresh state (no prior query), it yields an
event and changes the state, contradicting "yields no event and leaves the
state unchanged". -/
theorem claim_C3_counterexample :
    blockPhrase ("exactly denied query[AAAA] y.com from 3.3.3.3".toList) = true ∧
    emptyState.last_query_ip = none ∧
    (parse_log_line emptyState ("exactly denied query[AAAA] y.com from 3.3.3.3".toList)).1 ≠
      none ∧
    (parse_log_line emptyState ("exactly denied query[AAAA] y.com from 3.3.3.3".toList)).2 ≠
      emptyState :=
  ⟨by decide, by decide, by decide, by decide⟩

/-- Claim C3 (amended): block/deny lines that do not themselves match the
query pattern, classified on a state whose last-query-address is unset,
yield no event and leave the state unchanged, however many of them are
classified in a row. -/
theorem claim_C3_orphan_blocks (st : SourceState) (bl : List Line)
    (hst : st.last_query_ip = none)
    (hbl : ∀ l ∈ bl, parseQuery l = none ∧ blockPhrase l = true) :
    classifySeq st bl = ([], st) :=
  classifySeq_orphan st hst bl hbl

/-- Witness for C3 (amended): three orphan block lines on the fresh state. -/
theorem claim_C3_orphan_blocks_witness :
    classifySeq emptyState [lineB, lineB, "Oct: exactly denied bad.com".toList] =
      ([], emptyState) :=
  claim_C3_orphan_blocks emptyState [lineB, lineB, "Oct: exactly denied bad.com".toList]
    (by decide) (by decide)

/-- Claim C4: with blocked_only active, the two-line end-to-end sequence
emits exactly one event onto the merge channel — the Block — and zero for
the Query; the suppressed Query line still updated last-query-address, which
is why the Block carries the query's address 192.168.1.100. -/
theorem claim_C4_blocked_only :
    stream_logs_run mockLookup cfgBlockedOnly emptyState
      [("14:18:46".toList, lineQ), ("14:18:47".toList, lineB)] =
    ([formatEvent ansiCyan ("pihole1".toList) ("14:18:47".toList)
        ("laptop.local (192.168.1.100)".toList) lineB true],
      { last_query_ip := some scnIp,
        dns_cache := [(scnIp, "laptop.local".toList)] }) := by decide

/-- Counterexample for C5: in the end-to-end scenario the Query event's
description is the line up to " from ", which includes the timestamp prefix
"Oct  4 14:18:46: "; it is not equal to "query[A] example.com" as the claim
states. -/
theorem claim_C5_counterexample :
    (parse_log_line emptyState lineQ).1 =
      some ("Oct  4 14:18:46: query[A] example.com".toList, scnIp, false) ∧
    ("Oct  4 14:18:46: query[A] example.com".toList : Line) ≠
      "query[A] example.com".toList :=
  ⟨by decide, by decide⟩

/-- Claim C5 (amended): the end-to-end scenario with the mock resolver and
no filters produces one Query FormattedEvent containing
"laptop.local (192.168.1.100)" and containing "query[A] example.com" — its
description being "Oct  4 14:18:46: query[A] example.com", the line up to
" from " with the timestamp prefix included — followed by one Block
FormattedEvent reusing address 192.168.1.100. -/
theorem claim_C5_scenario :
    stream_logs_run mockLookup cfgScenario emptyState
      [("14:18:46".toList, lineQ), ("14:18:47".toList, lineB)] =
    ([formatEvent ansiCyan ("pihole1".toList) ("14:18:46".toList)
        ("laptop.local (192.168.1.100)".toList)
        ("Oct  4 14:18:46: query[A] example.com".toList) false,
      formatEvent ansiCyan ("pihole1".toList) ("14:18:47".toList)
        ("laptop.local (192.168.1.100)".toList) lineB true],
      { last_query_ip := some scnIp,
        dns_cache := [(scnIp, "laptop.local".toList)] }) ∧
    containsSub ("laptop.local (192.168.1.100)".toList)
      (formatEvent ansiCyan ("pihole1".toList) ("14:18:46".toList)
        ("laptop.local (192.168.1.100)".toList)
        ("Oct  4 14:18:46: query[A] example.com".toList) false) = true ∧
    containsSub ("query[A] example.com".toList)
      (formatEvent ansiCyan ("pihole1".toList) ("14:18:46".toList)
        ("laptop.local (192.168.1.100)".toList)
        ("Oct  4 14:18:46: query[A] example.com".toList) false) = true :=
  ⟨by decide, by decide, by decide⟩

/-- Claim C6: for every address, a second resolve with the cache produced by
the first call returns the identical value and cache and performs zero
external lookups; more generally, over any sequence of resolve calls
threading one cache, the external lookup is invoked at most once per
address. -/
theorem claim_C6_cache_idempotent (lookup : Lookup) (cache : Cache) (ip a : Line)
    (ips : List Line) :
    resolve_hostname lookup ((resolve_hostname lookup cache ip).2.1) ip =
      ((resolve_hostname lookup cache ip).1, (resolve_hostname lookup cache ip).2.1, 0) ∧
    resolveFoldCalls lookup cache a ips ≤ 1 := by
  constructor
  · exact resolve_hit lookup _ ip _ (resolve_caches lookup cache ip)
  · exact resolveFoldCalls_le_one lookup a ips cache

/-- Claim C7: whenever the external reverse-lookup fails with a lookup error
of any kind (socket.herror or socket.gaierror), resolve caches the address
as its own resolved name and returns the address; the failure is consumed
inside resolve (the embedding is a total function), never propagated. -/
theorem claim_C7_negative_cache (lookup : Lookup) (cache : Cache) (ip : Line)
    (e : LookupErr) (hmiss : cacheFind cache ip = none)
    (hfail : lookup ip = Except.error e) :
    resolve_hostname lookup cache ip = (ip, cache ++ [(ip, ip)], 1) := by
  rw [resolve_hostname, hmiss, hfail]

/-- Witness for C7: an always-failing lookup on a fresh cache negatively
caches 10.0.0.5 and returns it. -/
theorem claim_C7_negative_cache_witness :
    resolve_hostname (fun _ => Except.error LookupErr.gaierror) [] ("10.0.0.5".toList) =
      ("10.0.0.5".toList, [("10.0.0.5".toList, "10.0.0.5".toList)], 1) :=
  claim_C7_negative_cache (fun _ => Except.error LookupErr.gaierror) []
    ("10.0.0.5".toList) LookupErr.gaierror rfl rfl

/-- Claim C8: when a non-empty host filter string is configured, a
classified Query or Block event is emitted if and only if the filter is a
case-insensitive substring of the resolved name or exactly equals the raw
address. -/
theorem claim_C8_filter (lookup : Lookup) (hn col ts : Line) (vb : Bool)
    (st : SourceState) (raw f d ip : Line) (bfl : Bool) (st1 : SourceState)
    (hf : f ≠ [])
    (hp : parse_log_line st (strip raw) = (some (d, ip, bfl), st1)) :
    ((process_line lookup
        { hostname := hn, color := col, show_blocked_only := false,
          filter_host := some f, verbose := vb } ts st raw).1.isSome = true ↔
      (containsSub (toLowerL f)
          (toLowerL (resolve_hostname lookup st1.dns_cache ip).1) = true ∨ f = ip)) := by
  have hne : strip raw ≠ [] := by
    intro hsr
    rw [hsr] at hp
    have h2 : (none : Option (Line × Line × Bool)) = some (d, ip, bfl) :=
      congrArg Prod.fst hp
    exact Option.noConfusion h2
  rcases hr : resolve_hostname lookup st1.dns_cache ip with ⟨hostname, cache2, k⟩
  rw [process_line, if_neg hne, hp]
  simp only [hr]
  have hkeep : keepByFilter (some f) hostname ip =
      (containsSub (toLowerL f) (toLowerL hostname) || f == ip) := by
    rw [keepByFilter, if_neg hf]
  by_cases hk : keepByFilter (some f) hostname ip = true
  · rw [hkeep] at hk
    simp only [Bool.or_eq_true, beq_iff_eq] at hk
    simp [hkeep, Bool.or_eq_true, beq_iff_eq, hk]
  · rw [hkeep] at hk
    simp only [Bool.or_eq_true, beq_iff_eq] at hk
    push_neg at hk
    simp [hkeep, Bool.or_eq_true, beq_iff_eq, hk.1, hk.2]

/-- Witness for C8: filter "laptop" against the scenario query line with the
mock resolver (resolved name laptop.local): the event is kept. -/
theorem claim_C8_filter_witness :
    ((process_line mockLookup
        { hostname := "pihole1".toList, color := ansiCyan, show_blocked_only := false,
          filter_host := some ("laptop".toList), verbose := false }
        ("14:18:46".toList) emptyState lineQ).1.isSome = true ↔
      (containsSub (toLowerL ("laptop".toList))
          (toLowerL (resolve_hostname mockLookup
            ({ last_query_ip := some scnIp, dns_cache := [] } : SourceState).dns_cache
            scnIp).1) = true ∨ ("laptop".toList : Line) = scnIp)) :=
  claim_C8_filter mockLookup ("pihole1".toList) ansiCyan ("14:18:46".toList) false
    emptyState lineQ ("laptop".toList)
    ("Oct  4 14:18:46: query[A] example.com".toList) scnIp false
    { last_query_ip := some scnIp, dns_cache := [] } (by decide) (by decide)
